import Mathlib

/-!
# gofiche: the submission path, the help text and the hit counter

A shallow embedding of `gofiche.go`.  The package keeps its state in package-level
variables (`s`, `ts`, `ct`, the global `math/rand` source); here they are the fields of
`Globals`, threaded through every handler.  What the handlers do to the outside world
(files, standard output) is the `World`; what the outside world answers during one request
(the clock, the outcome of each system call) is the `Env`.

Conventions.
* Go `string` is `String`, `[]byte` is `List UInt8`, `[]rune` is `List Char`.
* Go `int` is `Int`; where the code does arithmetic on it (`ct.counter++`) the result is
  wrapped to 64 bits, two's complement.
* Go `error` is `Option String`: `none` is `nil`, `some msg` an error with that text.
* A run-time panic (`make` length out of range, index out of range, `rand.Intn(0)`) is
  `none`.
* An allocation that passes the range check of `make` succeeds: running out of memory
  is not modelled.
* Paths are Unix paths (`filepath.Separator` is `/`).
-/

set_option linter.dupNamespace false

namespace Gofiche

/-! ## Package-level constants and types -/

abbrev Bytes := List UInt8

abbrev GoError := Option String

def gofiche : String := "gofiche"

def slugChars : List Char :=
  "abcdefghijklmnopqrstuvwxyzABCDEFGHIJKLMNOPQRSTUVWXYZ".toList

structure Slug where
  Length : Int
  Slug : String
deriving DecidableEq, Repr

structure GoficheSettings where
  ListenAddr : String
  Port : Int
  Slug : Slug
  Domain : String
  BufferSize : Int
  UserName : String
  LogFile : String
  OutDir : String
  Debug : Bool
deriving DecidableEq, Repr

/-- Each time the URL is visited, a counter is incremented and the value is returned. -/
structure CounterHandler where
  counter : Int
deriving DecidableEq, Repr

/-! ## Machine integers -/

/-- Width of Go's `int` on the 64-bit platforms. -/
def intBits : Nat := 64

/-- The value a signed `int` holds after an arithmetic result `x`: two's complement wrap. -/
def wrapInt (x : Int) : Int :=
  (x + 2 ^ (intBits - 1)) % 2 ^ intBits - 2 ^ (intBits - 1)

/-- Formatting verb `%d` on an `int`. -/
def fmtInt (x : Int) : String :=
  match x with
  | Int.ofNat n => Nat.repr n
  | Int.negSucc n => "-" ++ Nat.repr (n + 1)

/-! ## The global random source -/

/-- The global source of `math/rand`, as the stream of raw values it will still produce. -/
abbrev Rand := Nat → Nat

/-- The call `rand.Intn(n)`: a value in `[0, n)`, and the source advanced by one draw.
It panics when `n <= 0`. -/
def Intn (rng : Rand) (n : Nat) : Option (Nat × Rand) :=
  if n = 0 then none else some (rng 0 % n, fun i => rng (i + 1))

/-! ## Slug generation -/

/-- The loop `for i := range cnt { cnt[i] = slugChars[rand.Intn(len(slugChars))] }`:
`k` iterations are left and `i` is the current index. -/
def generateLoop : Nat → Nat → Rand → List Char → Option (List Char × Rand)
  | 0, _, rng, cnt => some (cnt, rng)
  | k + 1, i, rng, cnt =>
    match Intn rng slugChars.length with
    | none => none
    | some (j, rng') =>
      match slugChars[j]? with
      | none => none
      | some c => generateLoop k (i + 1) rng' (cnt.set i c)

/-- The constant `maxAlloc` of the Go runtime (`runtime/malloc.go`), the largest size of
one allocation, on the 64-bit platforms whose `heapAddrBits` is 48 (linux/amd64 among
them). -/
def maxAlloc : Nat := 2 ^ 48

/-- Size in bytes of a `rune` (an `int32`). -/
def runeSize : Nat := 4

/-- The expression `make([]rune, n)`.  The range check of `runtime.makeslice` panics with
`makeslice: len out of range` when `n < 0` or when `n` elements take more than `maxAlloc`
bytes; otherwise the slice holds `n` zero runes. -/
def makeRunes (n : Int) : Option (List Char) :=
  if n < 0 ∨ maxAlloc < runeSize * n.toNat then none
  else some (List.replicate n.toNat (Char.ofNat 0))

/-- Generates a random slug. -/
def Slug.Generate (s : Gofiche.Slug) (rng : Rand) : Option (Gofiche.Slug × Rand) :=
  match makeRunes s.Length with
  | none => none
  | some cnt =>
    match generateLoop cnt.length 0 rng cnt with
    | none => none
    | some (cnt', rng') => some ({ s with Slug := String.mk cnt' }, rng')

/-! ## Request bodies (`io.Reader`, `io.ReadAll`, `httputil.DumpRequest`) -/

/-- What one `Read` on a body can deliver: some bytes, or a non-EOF error. -/
inductive ReadEvent where
  | data (b : Bytes)
  | fail (msg : String)
deriving DecidableEq, Repr

/-- A reader is the sequence of events its `Read` calls will still deliver; once the
sequence is used up every further `Read` reports `io.EOF`. -/
abbrev Reader := List ReadEvent

/-- The call `io.ReadAll(r)`: reads until EOF or the first error and returns the data read
so far, the error (`nil` at EOF), and the reader as the call leaves it. -/
def ReadAll : Reader → Bytes × GoError × Reader
  | [] => ([], none, [])
  | ReadEvent.data b :: r =>
    match ReadAll r with
    | (d, e, r') => (b ++ d, e, r')
  | ReadEvent.fail msg :: r => ([], some msg, r)

structure Request where
  Method : String
  RequestURI : String
  Path : String
  RemoteAddr : String
  /-- The value `r.Context().Value("serverAddr")` that `Serve` installs. -/
  serverAddr : String
  Body : Reader
  /-- How `DumpRequest` renders the request line and headers around given body bytes. -/
  wire : Bytes → Bytes

/-- The call `httputil.DumpRequest(r, true)`.  It drains `r.Body` (`drainBody`).  When that
read succeeds, the body is replaced by a reader yielding the same bytes and the dump is
returned.  When it fails, `drainBody` returns `(nil, b, err)`: the dump is `nil`, and
`r.Body` stays the original reader, now past everything the failed read consumed. -/
def DumpRequest (r : Request) : Bytes × GoError × Request :=
  match ReadAll r.Body with
  | (_, some err, rest) => ([], some err, { r with Body := rest })
  | (d, none, _) => (r.wire d, none, { r with Body := [ReadEvent.data d] })

/-! ## `path/filepath` (Unix): `Clean` and `Join` -/

def Separator : Char := '/'

def IsPathSeparator (c : Char) : Bool := c = Separator

/-- The test `r+1 == n || IsPathSeparator(path[r+1])` on what follows position `r`. -/
def endOrSeparator : List Char → Bool
  | [] => true
  | c :: _ => IsPathSeparator c

/-- The loop `for out.w > dotdot && !IsPathSeparator(out.index(out.w)) { out.w-- }` of the
`..` case.  The output buffer is held last byte first, so `out.w` is its length and
`out.index(out.w)` is the byte dropped last, passed along as `dropped`. -/
def backtrackLoop (dotdot : Nat) : Char → List Char → List Char
  | _, [] => []
  | dropped, c :: out =>
    if (c :: out).length > dotdot && !IsPathSeparator dropped then backtrackLoop dotdot c out
    else c :: out

/-- The statement `out.w--` followed by `backtrackLoop`. -/
def backtrack (dotdot : Nat) : List Char → List Char
  | [] => []
  | c :: out => backtrackLoop dotdot c out

/-- The main loop `for r < n { switch ... }` of `filepath.Clean`.  `path` is `path[r:]`,
`out` the output buffer last byte first, and the fuel bounds the iterations (each one
consumes at least one byte of `path`). -/
def cleanLoop (rooted : Bool) : Nat → List Char → List Char → Nat → List Char
  | 0, _, out, _ => out
  | _ + 1, [], out, _ => out
  | fuel + 1, c :: path, out, dotdot =>
    if IsPathSeparator c then
      -- empty path element
      cleanLoop rooted fuel path out dotdot
    else if c = '.' && endOrSeparator path then
      -- . element
      cleanLoop rooted fuel path out dotdot
    else if c = '.' && path.head? = some '.' && endOrSeparator path.tail then
      -- .. element: remove to last separator
      if out.length > dotdot then
        -- can backtrack
        cleanLoop rooted fuel path.tail (backtrack dotdot out) dotdot
      else if !rooted then
        -- cannot backtrack, but not rooted, so append .. element.
        let out := if out.length > 0 then Separator :: out else out
        let out := '.' :: '.' :: out
        cleanLoop rooted fuel path.tail out out.length
      else
        cleanLoop rooted fuel path.tail out dotdot
    else
      -- real path element. add slash if needed
      let out :=
        if rooted && out.length != 1 || !rooted && out.length != 0 then Separator :: out
        else out
      -- copy element
      let elem := (c :: path).takeWhile (fun x => !IsPathSeparator x)
      cleanLoop rooted fuel ((c :: path).dropWhile (fun x => !IsPathSeparator x))
        (elem.reverse ++ out) dotdot

/-- The function `filepath.Clean`: the shortest path name equivalent to `path` by purely
lexical processing. -/
def Clean (path : String) : String :=
  match path.data with
  | [] => "."
  | c :: rest =>
    let out :=
      if IsPathSeparator c then cleanLoop true rest.length rest [Separator] 1
      else cleanLoop false (c :: rest).length (c :: rest) [] 0
    -- Turn empty string into "."
    let out := if out.length = 0 then ['.'] else out
    String.mk out.reverse

/-- The function `filepath.Join`: joins the elements from the first non-empty one on with
the separator and cleans the result. -/
def Join (elem : List String) : String :=
  match elem.dropWhile (fun e => e = "") with
  | [] => ""
  | es => Clean (String.intercalate (String.singleton Separator) es)

/-! ## The outside world -/

/-- The files of the file system, by the path they are opened with. -/
abbrev FS := String → Option Bytes

/-- The file system with the file at `path` holding `b`, every other file as before. -/
def FS.put (fs : FS) (path : String) (b : Bytes) : FS :=
  fun p => if p = path then some b else fs p

/-- One write to standard output: a formatted line, or the `[DEBUG]` line carrying the
bytes of a request dump. -/
inductive Output where
  | text (s : String)
  | debug (ts : String) (dump : Bytes)
deriving DecidableEq, Repr

structure World where
  fs : FS
  stdout : List Output

def World.print (world : World) (s : String) : World :=
  { world with stdout := world.stdout ++ [Output.text s] }

/-- What the environment answers during one request: the clock reading, formatted as
`time.RFC3339`, and the outcome of each system call the handler makes.  A failing `Write`
comes with the number of bytes that reached the file before the error. -/
structure Env where
  now : String
  mkdirAllErr : GoError
  createErr : GoError
  writeErr : Option (Nat × String)

/-- The call `os.MkdirAll(path, os.ModePerm)`: it creates directories only, no file
changes. -/
def MkdirAll (env : Env) (world : World) (_path : String) : GoError × World :=
  (env.mkdirAllErr, world)

/-- The call `os.Create(path)`: creates the file or truncates it if it exists. -/
def Create (env : Env) (world : World) (path : String) : GoError × World :=
  match env.createErr with
  | some err => (some err, world)
  | none => (none, { world with fs := world.fs.put path [] })

/-- The call `f.Write(b)` on the handle `os.Create(path)` returned: the bytes go to the
end of what the handle has written so far. -/
def Write (env : Env) (world : World) (path : String) (b : Bytes) : GoError × World :=
  match env.writeErr with
  | some (n, err) =>
    (some err, { world with fs := world.fs.put path ((world.fs path).getD [] ++ b.take n) })
  | none => (none, { world with fs := world.fs.put path ((world.fs path).getD [] ++ b) })

/-! ## Handlers -/

/-- The package-level variables `s`, `ts`, `ct` and the global random source (`t` is only
ever used to compute `ts`). -/
structure Globals where
  s : GoficheSettings
  ts : String
  ct : CounterHandler
  rand : Rand

/-- What a handler has handed to its `http.ResponseWriter`. -/
structure ResponseWriter where
  header : List (String × String)
  body : String
deriving DecidableEq, Repr

def ResponseWriter.new : ResponseWriter := { header := [], body := "" }

def ResponseWriter.Add (w : ResponseWriter) (key value : String) : ResponseWriter :=
  { w with header := w.header ++ [(key, value)] }

def ResponseWriter.WriteString (w : ResponseWriter) (s : String) : ResponseWriter :=
  { w with body := w.body ++ s }

/-- How a handler ends: it returns and the response goes out; `log.Fatal` exits the
process before anything is sent; or it panics (the server drops the connection). -/
inductive Outcome where
  | responded (w : ResponseWriter)
  | terminated (msg : String)
  | panicked
deriving DecidableEq, Repr

structure Result where
  outcome : Outcome
  g : Globals
  world : World

def rule : String := "============================================================"

/-- The function `setupOutdir`.  It reads `s.OutDir`, not its argument. -/
def setupOutdir (g : Globals) (env : Env) (world : World) (_d : String) : GoError × World :=
  match MkdirAll env world g.s.OutDir with
  | (some err, world) =>
    (some err, world.print ("[" ++ gofiche ++ "] " ++ g.ts ++
      " - Could not create paste directory: " ++ g.s.OutDir ++ "\n"))
  | (none, world) => (none, world)

/-- The debug branch of `getRoot`: dump the request, report a failed dump, print the
dump.  The request comes back as `DumpRequest` left it. -/
def debugDump (g : Globals) (world : World) (r : Request) : Request × World :=
  match DumpRequest r with
  | (dump, err, r) =>
    let world :=
      match err with
      | some e => world.print ("[ERROR] " ++ g.ts ++ " - " ++ e ++ "\n")
      | none => world
    (r, { world with stdout := world.stdout ++ [Output.debug g.ts dump] })

/-- The handler `getRoot`. -/
def getRoot (g : Globals) (env : Env) (world : World) (w : ResponseWriter) (r : Request) :
    Result :=
  -- set timestamps
  let g := { g with ts := env.now }
  let world := world.print (rule ++ "\n")
  let world := world.print ("[" ++ gofiche ++ "] " ++ g.ts ++ " - " ++ r.Method ++ " " ++
    r.RequestURI ++ " from " ++ r.RemoteAddr ++ " (" ++ r.serverAddr ++ ")...\n")
  let (r, world) := if g.s.Debug then debugDump g world r else (r, world)
  -- add a custom header so it is known responses come from here
  let w := w.Add ("X-" ++ gofiche) gofiche
  -- Get the body of the content recieved
  let (body, err, _) := ReadAll r.Body
  let world :=
    match err with
    | some _ => world.print ("[" ++ gofiche ++ "] " ++ g.ts ++ " - Could not read body!\n")
    | none => world
  -- Generate a random slug
  match g.s.Slug.Generate g.rand with
  | none => { outcome := Outcome.panicked, g := g, world := world }
  | some (slug, rand) =>
    let g := { g with s := { g.s with Slug := slug }, rand := rand }
    -- create the pastes dir and set the output file to outDir/slug.txt
    let (_, world) := setupOutdir g env world g.s.OutDir
    let sf := Join [g.s.OutDir, g.s.Slug.Slug ++ ".txt"]
    -- Create the file
    match Create env world sf with
    | (some err, world) => { outcome := Outcome.terminated err, g := g, world := world }
    | (none, world) =>
      -- Write the content to the file
      match Write env world sf body with
      | (some err, world) => { outcome := Outcome.terminated err, g := g, world := world }
      | (none, world) =>
        -- also print the slug path after the data is posted
        let w := w.WriteString (g.s.Domain ++ ":" ++ fmtInt g.s.Port ++ "/" ++ sf ++ "\n")
        -- Print a server-side note of the slug that was written
        let world := world.print ("[" ++ gofiche ++ "] " ++ g.ts ++ " - Wrote " ++ sf ++ "\n")
        let world := world.print (rule ++ "\n")
        { outcome := Outcome.responded w, g := g, world := world }

/-- The handler `getHelp`. -/
def getHelp (g : Globals) (world : World) (w : ResponseWriter) (_r : Request) : Result :=
  let target := g.s.Domain ++ ":" ++ fmtInt g.s.Port
  let examples : List String :=
    [ "Send me some data:",
      "curl -X POST --data-binary @foo.txt " ++ target,
      "curl -X POST -d 'foobar' " ++ target,
      "wget --post-data='foobar string' " ++ target ]
  let w := examples.foldl (fun w e => w.WriteString (e ++ "\n")) w
  { outcome := Outcome.responded w, g := g, world := world }

/-- Increment increases the counter. -/
def CounterHandler.Increment (ct : CounterHandler) (world : World) : CounterHandler × World :=
  ({ counter := wrapInt (ct.counter + 1) }, world.print (fmtInt ct.counter ++ "\n"))

/-- The handler `getCount`. -/
def getCount (g : Globals) (world : World) (w : ResponseWriter) (_r : Request) : Result :=
  match g.ct.Increment world with
  | (ct, world) =>
    let g := { g with ct := ct }
    let w := w.WriteString ("Count, " ++ fmtInt g.ct.counter ++ "!\n")
    { outcome := Outcome.responded w, g := g, world := world }

/-! ## Start-up and serving -/

/-- The function `init`: seed the random source, start the counter at 0. -/
def init (seed : Rand) : CounterHandler × Rand :=
  ({ counter := 0 }, seed)

/-- The state `Serve` starts the server in: `s = settings`, on top of what `init` set. -/
def Serve (settings : GoficheSettings) (seed : Rand) : Globals :=
  { s := settings, ts := "", ct := (init seed).1, rand := (init seed).2 }

/-- The routes of the mux: `/help` and `/count` match exactly, `/` matches the rest. -/
def handle (g : Globals) (env : Env) (world : World) (r : Request) : Result :=
  if r.Path = "/help" then getHelp g world ResponseWriter.new r
  else if r.Path = "/count" then getCount g world ResponseWriter.new r
  else getRoot g env world ResponseWriter.new r

/-- Requests served one after the other.  Serving stops when a handler exits the
process; a panicking handler only loses its own connection. -/
def serve : Globals → World → List (Env × Request) → List Outcome × Globals × World
  | g, world, [] => ([], g, world)
  | g, world, (env, r) :: rest =>
    let res := handle g env world r
    match res.outcome with
    | Outcome.terminated msg => ([Outcome.terminated msg], res.g, res.world)
    | o =>
      match serve res.g res.world rest with
      | (os, g', world') => (o :: os, g', world')

/-! ## Observations on a run of `getRoot` -/

/-- The request as it stands when `getRoot` reaches `io.ReadAll(r.Body)`: untouched, or
as the debug dump left it. -/
def requestAtRead (g : Globals) (r : Request) : Request :=
  if g.s.Debug then (DumpRequest r).2.2 else r

/-- The values `body, err` that `io.ReadAll(r.Body)` returns in `getRoot`. -/
def received (g : Globals) (r : Request) : Bytes × GoError :=
  ((ReadAll (requestAtRead g r).Body).1, (ReadAll (requestAtRead g r).Body).2.1)

/-- The header and the line `getRoot` hands to the response writer for the path `sf`. -/
def successResponse (s : GoficheSettings) (w : ResponseWriter) (sf : String) : ResponseWriter :=
  (w.Add "X-gofiche" "gofiche").WriteString
    (s.Domain ++ ":" ++ fmtInt s.Port ++ "/" ++ sf ++ "\n")

/-! ## A concrete deployment, for the worked examples

The settings of end-to-end scenario 1 (`example/main.go` fills the same fields from its
flags, with `outDir = "pastes"` and slug length 6), an environment in which every system
call succeeds, and a request carrying a given body. -/

def exampleSettings : GoficheSettings :=
  { ListenAddr := "0.0.0.0", Port := 9999, Slug := { Length := 6, Slug := "" },
    Domain := "example.com", BufferSize := 0, UserName := "", LogFile := "",
    OutDir := "pastes", Debug := false }

def exampleEnv : Env :=
  { now := "2024-01-01T00:00:00Z", mkdirAllErr := none, createErr := none, writeErr := none }

def exampleRequest (path : String) (body : Reader) : Request :=
  { Method := "POST", RequestURI := path, Path := path, RemoteAddr := "127.0.0.1:40000",
    serverAddr := "tcp", Body := body, wire := fun b => b }

def emptyWorld : World := { fs := fun _ => none, stdout := [] }

/-- The bytes of `hello world`. -/
def helloWorld : Bytes := [104, 101, 108, 108, 111, 32, 119, 111, 114, 108, 100]

/-! ## Slug generation: properties -/

theorem slugChars_length : slugChars.length = 52 := by decide

theorem Intn_slugChars (rng : Rand) :
    Intn rng slugChars.length = some (rng 0 % 52, fun i => rng (i + 1)) := by
  simp [Intn, slugChars_length]

theorem slugChars_get (j : Nat) (h : j < 52) :
    ∃ c, slugChars[j]? = some c ∧ c ∈ slugChars := by
  have hj : j < slugChars.length := by rw [slugChars_length]; exact h
  exact ⟨slugChars[j], List.getElem?_eq_getElem hj, List.getElem_mem hj⟩

theorem generateLoop_spec (k : Nat) :
    ∀ (i : Nat) (rng : Rand) (cnt : List Char), i + k ≤ cnt.length →
      ∃ cnt', generateLoop k i rng cnt = some (cnt', fun n => rng (n + k)) ∧
        cnt'.length = cnt.length ∧
        (∀ j, j < i → cnt'[j]? = cnt[j]?) ∧
        (∀ j, i ≤ j → j < i + k → ∃ c, cnt'[j]? = some c ∧ c ∈ slugChars) := by
  induction k with
  | zero =>
    intro i rng cnt _
    refine ⟨cnt, by simp [generateLoop], rfl, fun _ _ => rfl, ?_⟩
    intro j h1 h2; omega
  | succ k ih =>
    intro i rng cnt h
    obtain ⟨c, hc, hmem⟩ := slugChars_get (rng 0 % 52) (Nat.mod_lt _ (by decide))
    obtain ⟨cnt', hrun, hlen, hlow, hhigh⟩ :=
      ih (i + 1) (fun n => rng (n + 1)) (cnt.set i c) (by simp; omega)
    refine ⟨cnt', ?_, by simpa using hlen, ?_, ?_⟩
    · simp only [generateLoop, Intn_slugChars, hc, hrun]
      congr 2
    · intro j hj
      rw [hlow j (by omega), List.getElem?_set_ne (by omega)]
    · intro j h1 h2
      rcases Nat.eq_or_lt_of_le h1 with heq | hlt
      · subst heq
        refine ⟨c, ?_, hmem⟩
        rw [hlow i (by omega), List.getElem?_set_self (by omega)]
      · exact hhigh j (by omega) (by omega)

theorem slugChars_letters : ∀ c ∈ slugChars, c.isAlpha = true := by decide

theorem slugChars_nodup : slugChars.Nodup := by decide

theorem makeRunes_of_range (n : Int) (h₀ : 0 ≤ n) (h₁ : n ≤ 2 ^ 46) :
    makeRunes n = some (List.replicate n.toNat (Char.ofNat 0)) := by
  have : ¬(n < 0 ∨ maxAlloc < runeSize * n.toNat) := by
    simp only [maxAlloc, runeSize]
    norm_num at h₁ ⊢
    omega
  simp only [makeRunes, this, if_false]

theorem makeRunes_some (n : Int) (cnt : List Char) (h : makeRunes n = some cnt) :
    0 ≤ n ∧ n ≤ 2 ^ 46 ∧ cnt = List.replicate n.toNat (Char.ofNat 0) := by
  unfold makeRunes at h
  split at h
  · cases h
  · rename_i hrange
    simp only [maxAlloc, runeSize] at hrange
    refine ⟨by omega, ?_, by cases h; rfl⟩
    norm_num at hrange ⊢
    omega

theorem Generate_some (s slug : Gofiche.Slug) (rng rand : Rand)
    (h : s.Generate rng = some (slug, rand)) :
    0 ≤ s.Length ∧ s.Length ≤ 2 ^ 46 ∧
      rand = (fun n => rng (n + s.Length.toNat)) ∧
      slug.Length = s.Length ∧
      (slug.Slug.length : Int) = s.Length ∧
      ∀ c ∈ slug.Slug.data, c ∈ slugChars := by
  unfold Slug.Generate at h
  rcases hmake : makeRunes s.Length with _ | cnt
  · rw [hmake] at h
    cases h
  obtain ⟨h₀, h₁, hcnt⟩ := makeRunes_some _ _ hmake
  subst hcnt
  obtain ⟨cnt', hrun, hlen, -, hmem⟩ :=
    generateLoop_spec (List.replicate s.Length.toNat (Char.ofNat 0)).length 0 rng
      (List.replicate s.Length.toNat (Char.ofNat 0)) (by simp)
  rw [hmake] at h
  simp only [hrun, Option.some.injEq, Prod.mk.injEq] at h
  obtain ⟨hslug, hrand⟩ := h
  subst hslug
  refine ⟨h₀, h₁, ?_, rfl, ?_, ?_⟩
  · rw [← hrand]
    simp
  · simp only [String.length, hlen, List.length_replicate]
    exact Int.toNat_of_nonneg h₀
  · intro c hc
    obtain ⟨j, hj, hget⟩ := List.mem_iff_getElem.mp hc
    obtain ⟨c', hc', hin⟩ := hmem j (Nat.zero_le _) (by simpa [hlen] using hj)
    have : cnt'[j]? = some c := by rw [List.getElem?_eq_getElem hj, hget]
    rw [this] at hc'
    cases hc'
    exact hin

theorem Generate_of_range (s : Gofiche.Slug) (rng : Rand) (h₀ : 0 ≤ s.Length)
    (h₁ : s.Length ≤ 2 ^ 46) :
    ∃ slug, s.Generate rng = some (slug, fun n => rng (n + s.Length.toNat)) := by
  obtain ⟨cnt', hrun, -⟩ :=
    generateLoop_spec (List.replicate s.Length.toNat (Char.ofNat 0)).length 0 rng
      (List.replicate s.Length.toNat (Char.ofNat 0)) (by simp)
  refine ⟨{ s with Slug := String.mk cnt' }, ?_⟩
  simp only [Slug.Generate, makeRunes_of_range _ h₀ h₁, hrun]
  simp

theorem Generate_ne_none_iff (s : Gofiche.Slug) (rng : Rand) :
    s.Generate rng ≠ none ↔ 0 ≤ s.Length ∧ s.Length ≤ 2 ^ 46 := by
  constructor
  · intro h
    obtain ⟨⟨slug, rand⟩, hgen⟩ := Option.ne_none_iff_exists'.mp h
    exact ⟨(Generate_some _ _ _ _ hgen).1, (Generate_some _ _ _ _ hgen).2.1⟩
  · rintro ⟨h₀, h₁⟩
    obtain ⟨slug, hgen⟩ := Generate_of_range s rng h₀ h₁
    rw [hgen]
    simp

theorem Generate_result (s : Gofiche.Slug) (rng : Rand) (h₀ : 0 ≤ s.Length)
    (h₁ : s.Length ≤ 2 ^ 46) :
    ∃ slug, s.Generate rng = some (slug, fun n => rng (n + s.Length.toNat)) ∧
      slug.Length = s.Length ∧
      (slug.Slug.length : Int) = s.Length ∧
      ∀ c ∈ slug.Slug.data, c ∈ slugChars := by
  obtain ⟨slug, hgen⟩ := Generate_of_range s rng h₀ h₁
  obtain ⟨-, -, -, hlen, hstr, hmem⟩ := Generate_some _ _ _ _ hgen
  exact ⟨slug, hgen, hlen, hstr, hmem⟩

/-- Claim C1, as amended: for every slug length `L` with `0 < L ≤ 2 ^ 46` (the longest
`[]rune` that `make` accepts where `maxAlloc` is `2 ^ 48` bytes) and every sequence of
random draws, `Slug.Generate` runs to completion (no index of `slugChars` is out of range:
every value `rand.Intn(len(slugChars))` returns is below `len(slugChars) = 52`) and sets
the slug to a string of exactly `L` characters, each a member of `slugChars`, whose 52
entries are distinct ASCII letters (so `a-z`, `A-Z`); the length field is left as it was
and `L` draws are consumed. -/
theorem Slug.Generate_spec (s : Gofiche.Slug) (rng : Rand) (hL : 0 < s.Length)
    (hmax : s.Length ≤ 2 ^ 46) :
    (∀ r : Rand, ∃ j r', Intn r slugChars.length = some (j, r') ∧ j < slugChars.length) ∧
    slugChars.length = 52 ∧ slugChars.Nodup ∧ (∀ c ∈ slugChars, c.isAlpha = true) ∧
    ∃ slug, s.Generate rng = some (slug, fun n => rng (n + s.Length.toNat)) ∧
      slug.Length = s.Length ∧
      (slug.Slug.length : Int) = s.Length ∧
      ∀ c ∈ slug.Slug.data, c ∈ slugChars := by
  refine ⟨?_, slugChars_length, slugChars_nodup, slugChars_letters,
    Generate_result s rng hL.le hmax⟩
  intro r
  refine ⟨_, _, Intn_slugChars r, ?_⟩
  rw [slugChars_length]
  exact Nat.mod_lt _ (by decide)

/-- Witness for C1: length 6 with the draws 0, 1, 2, ... -/
theorem Slug.Generate_spec_witness :
    (0 : Int) < (Gofiche.Slug.mk 6 "").Length ∧ (Gofiche.Slug.mk 6 "").Length ≤ 2 ^ 46 ∧
    ∃ slug, (Gofiche.Slug.mk 6 "").Generate (fun n => n) = some (slug, fun n => n + 6) ∧
      slug.Length = 6 ∧ (slug.Slug.length : Int) = 6 ∧ ∀ c ∈ slug.Slug.data, c ∈ slugChars :=
  ⟨by decide, by decide,
    (Slug.Generate_spec (Gofiche.Slug.mk 6 "") (fun n => n) (by decide) (by decide)).2.2.2.2⟩

/-- Counterexample to C1 as stated: with slug length `2 ^ 62` the allocation
`make([]rune, s.Length)` panics (`makeslice: len out of range`), so `Slug.Generate` sets
no slug at all; the same happens one past the bound, at `2 ^ 46 + 1`. -/
theorem Slug.Generate_counterexample :
    (0 : Int) < (Gofiche.Slug.mk (2 ^ 62) "").Length ∧
    (Gofiche.Slug.mk (2 ^ 62) "").Generate (fun _ => 0) = none ∧
    (Gofiche.Slug.mk (2 ^ 46 + 1) "").Generate (fun _ => 0) = none := by
  refine ⟨by decide, ?_, ?_⟩
  · simp [Slug.Generate, makeRunes, maxAlloc, runeSize]
  · simp [Slug.Generate, makeRunes, maxAlloc, runeSize]

/-! ## `getRoot`: what a run leaves behind -/

@[simp] theorem World.print_fs (world : World) (s : String) : (world.print s).fs = world.fs := rfl

@[simp] theorem debugDump_fs (g : Globals) (world : World) (r : Request) :
    (debugDump g world r).2.fs = world.fs := by
  unfold debugDump
  rcases DumpRequest r with ⟨dump, _ | e, r'⟩ <;> rfl

@[simp] theorem debugDump_request (g : Globals) (world : World) (r : Request) :
    (debugDump g world r).1 = (DumpRequest r).2.2 := by
  unfold debugDump
  rcases DumpRequest r with ⟨dump, _ | e, r'⟩ <;> rfl

@[simp] theorem setupOutdir_fs (g : Globals) (env : Env) (world : World) (d : String) :
    (setupOutdir g env world d).2.fs = world.fs := by
  unfold setupOutdir MkdirAll
  cases env.mkdirAllErr <;> rfl

theorem FS.put_put (fs : FS) (p : String) (a b : Bytes) :
    (fs.put p a).put p b = fs.put p b := by
  funext q
  by_cases h : q = p <;> simp [FS.put, h]

@[simp] theorem FS.put_same (fs : FS) (p : String) (b : Bytes) : fs.put p b p = some b := by
  simp [FS.put]

theorem FS.put_other (fs : FS) (p q : String) (b : Bytes) (h : q ≠ p) :
    fs.put p b q = fs q := by
  simp [FS.put, h]

theorem getRoot_outcome (g : Globals) (env : Env) (world : World) (w : ResponseWriter)
    (r : Request) :
    (getRoot g env world w r).outcome =
      match g.s.Slug.Generate g.rand with
      | none => Outcome.panicked
      | some (slug, _) =>
        match env.createErr with
        | some err => Outcome.terminated err
        | none =>
          match env.writeErr with
          | some (_, err) => Outcome.terminated err
          | none =>
            Outcome.responded
              (successResponse g.s w (Join [g.s.OutDir, slug.Slug ++ ".txt"])) := by
  unfold getRoot
  simp only []
  rcases hgen : g.s.Slug.Generate g.rand with _ | ⟨slug, rand⟩
  · simp
  · rcases hc : env.createErr with _ | e
    · rcases hw : env.writeErr with _ | ⟨n, e⟩
      · simp [Create, Write, hc, hw, successResponse, gofiche]
      · simp [Create, Write, hc, hw]
    · simp [Create, hc]

theorem getRoot_fs (g : Globals) (env : Env) (world : World) (w : ResponseWriter)
    (r : Request) :
    (getRoot g env world w r).world.fs =
      match g.s.Slug.Generate g.rand with
      | none => world.fs
      | some (slug, _) =>
        match env.createErr with
        | some _ => world.fs
        | none =>
          match env.writeErr with
          | some (n, _) =>
            world.fs.put (Join [g.s.OutDir, slug.Slug ++ ".txt"]) ((received g r).1.take n)
          | none => world.fs.put (Join [g.s.OutDir, slug.Slug ++ ".txt"]) (received g r).1 := by
  unfold getRoot
  simp only []
  rcases hgen : g.s.Slug.Generate g.rand with _ | ⟨slug, rand⟩
  · cases hD : g.s.Debug <;> simp [hD] <;> split <;> simp
  · rcases hc : env.createErr with _ | e
    · rcases hw : env.writeErr with _ | ⟨n, e⟩
      · cases hD : g.s.Debug <;>
          simp [Create, Write, hc, hw, received, requestAtRead, hD, FS.put_put] <;>
          split <;> simp [FS.put_put]
      · cases hD : g.s.Debug <;>
          simp [Create, Write, hc, hw, received, requestAtRead, hD, FS.put_put] <;>
          split <;> simp [FS.put_put]
    · cases hD : g.s.Debug <;> simp [Create, hc, hD] <;> split <;> simp

theorem getRoot_g (g : Globals) (env : Env) (world : World) (w : ResponseWriter)
    (r : Request) :
    (getRoot g env world w r).g =
      match g.s.Slug.Generate g.rand with
      | none => { g with ts := env.now }
      | some (slug, rand) => { g with ts := env.now, s := { g.s with Slug := slug }, rand := rand } := by
  unfold getRoot
  simp only []
  rcases hgen : g.s.Slug.Generate g.rand with _ | ⟨slug, rand⟩
  · simp
  · rcases hc : env.createErr with _ | e
    · rcases hw : env.writeErr with _ | ⟨n, e⟩
      · simp [Create, Write, hc, hw]
      · simp [Create, Write, hc, hw]
    · simp [Create, hc]

theorem ReadAll_single (b : Bytes) : ReadAll [ReadEvent.data b] = (b, none, []) := by
  simp [ReadAll]

theorem received_of_read_ok (g : Globals) (r : Request) (B : Bytes) (rest : Reader)
    (h : ReadAll r.Body = (B, none, rest)) : received g r = (B, none) := by
  cases hD : g.s.Debug <;>
    simp [received, requestAtRead, hD, DumpRequest, h, ReadAll_single]

theorem received_debug_off (g : Globals) (r : Request) (hD : g.s.Debug = false) :
    received g r = ((ReadAll r.Body).1, (ReadAll r.Body).2.1) := by
  simp [received, requestAtRead, hD]

theorem getRoot_responded_iff (g : Globals) (env : Env) (world : World) (w : ResponseWriter)
    (r : Request) :
    (∃ w', (getRoot g env world w r).outcome = Outcome.responded w') ↔
      (g.s.Slug.Generate g.rand ≠ none ∧ env.createErr = none ∧ env.writeErr = none) := by
  rw [getRoot_outcome]
  rcases hgen : g.s.Slug.Generate g.rand with _ | ⟨slug, rand⟩
  · simp
  · rcases hc : env.createErr with _ | e
    · rcases hw : env.writeErr with _ | ⟨n, e⟩ <;> simp
    · simp

/-- Claim C2: for every payload `B` the request body delivers (the empty one included),
every starting file system and every configuration, a run of `getRoot` in which the slug
is generated (`make` accepts the length), file creation succeeds and the write succeeds
leaves the file at `filepath.Join(OutDir, slug + ".txt")` holding exactly `B` and every
other file as it was.  These three conditions are exactly those under which the handler
responds (`getRoot_responded_iff`); the outcome of the directory creation plays no part,
since `getRoot` does not look at it. -/
theorem getRoot_stores_payload (g : Globals) (env : Env) (world : World) (w : ResponseWriter)
    (r : Request) (B : Bytes) (rest : Reader)
    (hB : ReadAll r.Body = (B, none, rest))
    (hgen : g.s.Slug.Generate g.rand ≠ none)
    (hcr : env.createErr = none) (hwr : env.writeErr = none) :
    ∃ slug rand, g.s.Slug.Generate g.rand = some (slug, rand) ∧
      (getRoot g env world w r).world.fs (Join [g.s.OutDir, slug.Slug ++ ".txt"]) = some B ∧
      ∀ p, p ≠ Join [g.s.OutDir, slug.Slug ++ ".txt"] →
        (getRoot g env world w r).world.fs p = world.fs p := by
  obtain ⟨⟨slug, rand⟩, hgen⟩ := Option.ne_none_iff_exists'.mp hgen
  refine ⟨slug, rand, hgen, ?_, ?_⟩
  · simp [getRoot_fs, hgen, hcr, hwr, received_of_read_ok g r B rest hB]
  · intro p hp
    simp [getRoot_fs, hgen, hcr, hwr, FS.put_other _ _ _ _ hp]

/-- Claim C4: two submissions with payloads `B₁` and `B₂`, served one after the other
with the same settings, that draw the same slug: nothing stops the second, both end in the
same response (the same path), the output directory is still the same, and the file at
that path holds `B₁` after the first and exactly `B₂` after the second, whatever the two
lengths. -/
theorem getRoot_collision_overwrites (g : Globals) (env₁ env₂ : Env) (world : World)
    (w : ResponseWriter) (r₁ r₂ : Request) (B₁ B₂ : Bytes) (rest₁ rest₂ : Reader)
    (slug₁ slug₂ : Gofiche.Slug) (rand₁ rand₂ : Rand)
    (hB₁ : ReadAll r₁.Body = (B₁, none, rest₁)) (hB₂ : ReadAll r₂.Body = (B₂, none, rest₂))
    (hc₁ : env₁.createErr = none) (hw₁ : env₁.writeErr = none)
    (hc₂ : env₂.createErr = none) (hw₂ : env₂.writeErr = none)
    (hs₁ : g.s.Slug.Generate g.rand = some (slug₁, rand₁))
    (hs₂ : (getRoot g env₁ world w r₁).g.s.Slug.Generate (getRoot g env₁ world w r₁).g.rand =
      some (slug₂, rand₂))
    (hsame : slug₂.Slug = slug₁.Slug) :
    (getRoot g env₁ world w r₁).g.s.OutDir = g.s.OutDir ∧
    (getRoot g env₁ world w r₁).outcome =
      Outcome.responded (successResponse g.s w (Join [g.s.OutDir, slug₁.Slug ++ ".txt"])) ∧
    (getRoot g env₁ world w r₁).world.fs (Join [g.s.OutDir, slug₁.Slug ++ ".txt"]) = some B₁ ∧
    (getRoot (getRoot g env₁ world w r₁).g env₂ (getRoot g env₁ world w r₁).world w r₂).outcome =
      Outcome.responded (successResponse g.s w (Join [g.s.OutDir, slug₁.Slug ++ ".txt"])) ∧
    (getRoot (getRoot g env₁ world w r₁).g env₂ (getRoot g env₁ world w r₁).world w r₂).world.fs
      (Join [g.s.OutDir, slug₁.Slug ++ ".txt"]) = some B₂ := by
  have hg : (getRoot g env₁ world w r₁).g =
      { g with ts := env₁.now, s := { g.s with Slug := slug₁ }, rand := rand₁ } := by
    simp [getRoot_g, hs₁]
  refine ⟨by simp [hg], by simp [getRoot_outcome, hs₁, hc₁, hw₁], ?_, ?_, ?_⟩
  · simp [getRoot_fs, hs₁, hc₁, hw₁, received_of_read_ok g r₁ B₁ rest₁ hB₁]
  · rw [getRoot_outcome, hs₂]
    simp [hc₂, hw₂, hsame, hg, successResponse]
  · rw [getRoot_fs, hs₂]
    simp [hc₂, hw₂, hsame, received_of_read_ok _ r₂ B₂ rest₂ hB₂, hg]

/-- Witness for C4: `hello world` is overwritten by the shorter `hi`. -/
theorem getRoot_collision_overwrites_witness :
    (getRoot (getRoot (Serve exampleSettings (fun _ => 0)) exampleEnv emptyWorld
        ResponseWriter.new (exampleRequest "/" [ReadEvent.data helloWorld])).g exampleEnv
      (getRoot (Serve exampleSettings (fun _ => 0)) exampleEnv emptyWorld
        ResponseWriter.new (exampleRequest "/" [ReadEvent.data helloWorld])).world
      ResponseWriter.new (exampleRequest "/" [ReadEvent.data [104, 105]])).world.fs
      (Join ["pastes", "aaaaaa" ++ ".txt"]) = some [104, 105] :=
  (getRoot_collision_overwrites (Serve exampleSettings (fun _ => 0)) exampleEnv exampleEnv
    emptyWorld ResponseWriter.new (exampleRequest "/" [ReadEvent.data helloWorld])
    (exampleRequest "/" [ReadEvent.data [104, 105]]) helloWorld [104, 105] [] []
    { Length := 6, Slug := "aaaaaa" } { Length := 6, Slug := "aaaaaa" }
    (fun _ => 0) (fun _ => 0) rfl rfl rfl rfl rfl rfl rfl rfl rfl).2.2.2.2

/-- Witness for C2: the empty payload leaves a zero-byte file. -/
theorem getRoot_stores_payload_witness :
    ∃ slug rand, (Serve exampleSettings (fun _ => 0)).s.Slug.Generate (fun _ => 0) =
        some (slug, rand) ∧
      (getRoot (Serve exampleSettings (fun _ => 0)) exampleEnv emptyWorld ResponseWriter.new
        (exampleRequest "/" [])).world.fs (Join ["pastes", slug.Slug ++ ".txt"]) = some [] ∧
      ∀ p, p ≠ Join ["pastes", slug.Slug ++ ".txt"] →
        (getRoot (Serve exampleSettings (fun _ => 0)) exampleEnv emptyWorld ResponseWriter.new
          (exampleRequest "/" [])).world.fs p = emptyWorld.fs p :=
  getRoot_stores_payload (Serve exampleSettings (fun _ => 0)) exampleEnv emptyWorld
    ResponseWriter.new (exampleRequest "/" []) [] [] rfl
    ((Generate_ne_none_iff _ _).mpr ⟨by decide, by decide⟩) rfl rfl

/-! ## `filepath.Clean` on a path followed by one more element -/

theorem cleanLoop_nil (rooted : Bool) (fuel : Nat) (out : List Char) (dotdot : Nat) :
    cleanLoop rooted fuel [] out dotdot = out := by
  cases fuel <;> rfl

theorem dropWhile_length_le (p : Char → Bool) (l : List Char) :
    (l.dropWhile p).length ≤ l.length := by
  induction l with
  | nil => simp
  | cons a l ih =>
    simp only [List.dropWhile_cons]
    split
    · exact Nat.le_succ_of_le ih
    · exact Nat.le_refl _

theorem cleanLoop_fuel (rooted : Bool) (fuel₁ : Nat) :
    ∀ (fuel₂ : Nat) (path out : List Char) (dotdot : Nat),
      path.length ≤ fuel₁ → path.length ≤ fuel₂ →
      cleanLoop rooted fuel₁ path out dotdot = cleanLoop rooted fuel₂ path out dotdot := by
  induction fuel₁ with
  | zero =>
    intro fuel₂ path out dotdot h₁ _
    have : path = [] := List.length_eq_zero.mp (Nat.le_zero.mp h₁)
    subst this
    simp [cleanLoop_nil]
  | succ k ih =>
    intro fuel₂ path out dotdot h₁ h₂
    cases path with
    | nil => simp [cleanLoop_nil]
    | cons c path =>
      cases fuel₂ with
      | zero => simp at h₂
      | succ m =>
        simp only [List.length_cons, Nat.add_le_add_iff_right] at h₁ h₂
        have ht₁ : path.tail.length ≤ k := le_trans (by simp) h₁
        have ht₂ : path.tail.length ≤ m := le_trans (by simp) h₂
        have hd : ∀ n, path.length ≤ n → IsPathSeparator c ≠ true →
            ((c :: path).dropWhile (fun x => !IsPathSeparator x)).length ≤ n := by
          intro n hn hc
          rw [List.dropWhile_cons_of_pos (by simpa using hc)]
          exact le_trans (dropWhile_length_le _ _) hn
        simp only [cleanLoop]
        by_cases hsep : IsPathSeparator c = true
        · simp only [hsep, if_true]
          exact ih _ _ _ _ h₁ h₂
        · simp only [hsep]
          split_ifs
          all_goals first
            | exact ih _ _ _ _ h₁ h₂
            | exact ih _ _ _ _ ht₁ ht₂
            | exact ih _ _ _ _ (hd k h₁ hsep) (hd m h₂ hsep)

theorem endOrSeparator_append (p ys : List Char) :
    endOrSeparator (p ++ Separator :: ys) = endOrSeparator p := by
  cases p <;> simp [endOrSeparator, IsPathSeparator]

theorem dotdot_test_append (p ys : List Char) :
    (decide ((p ++ Separator :: ys).head? = some '.') &&
        endOrSeparator (p ++ Separator :: ys).tail) =
      (decide (p.head? = some '.') && endOrSeparator p.tail) := by
  cases p with
  | nil => simp [Separator]
  | cons d q => simp [endOrSeparator_append]

theorem takeWhile_append_separator (p ys : List Char) :
    (p ++ Separator :: ys).takeWhile (fun x => !IsPathSeparator x) =
      p.takeWhile (fun x => !IsPathSeparator x) := by
  induction p with
  | nil => simp [IsPathSeparator]
  | cons a p ih =>
    simp only [List.cons_append, List.takeWhile_cons, ih]

theorem dropWhile_append_separator (p ys : List Char) :
    (p ++ Separator :: ys).dropWhile (fun x => !IsPathSeparator x) =
      p.dropWhile (fun x => !IsPathSeparator x) ++ Separator :: ys := by
  induction p with
  | nil => simp [IsPathSeparator]
  | cons a p ih =>
    simp only [List.cons_append, List.dropWhile_cons, ih]
    split <;> rfl

theorem cleanLoop_cons (rooted : Bool) (fuel : Nat) (c : Char) (path out : List Char)
    (dotdot : Nat) :
    cleanLoop rooted (fuel + 1) (c :: path) out dotdot =
      if IsPathSeparator c then cleanLoop rooted fuel path out dotdot
      else if c = '.' && endOrSeparator path then cleanLoop rooted fuel path out dotdot
      else if c = '.' && path.head? = some '.' && endOrSeparator path.tail then
        if out.length > dotdot then
          cleanLoop rooted fuel path.tail (backtrack dotdot out) dotdot
        else if !rooted then
          cleanLoop rooted fuel path.tail
            ('.' :: '.' :: (if out.length > 0 then Separator :: out else out))
            ('.' :: '.' :: (if out.length > 0 then Separator :: out else out)).length
        else cleanLoop rooted fuel path.tail out dotdot
      else
        cleanLoop rooted fuel ((c :: path).dropWhile (fun x => !IsPathSeparator x))
          (((c :: path).takeWhile (fun x => !IsPathSeparator x)).reverse ++
            (if rooted && out.length != 1 || !rooted && out.length != 0 then Separator :: out
             else out)) dotdot := by
  rfl

theorem cleanLoop_append (rooted : Bool) (n : Nat) :
    ∀ xs : List Char, xs.length ≤ n → ∀ (ys out : List Char) (dotdot f₁ f₂ : Nat),
      (xs ++ Separator :: ys).length ≤ f₁ → xs.length ≤ f₂ →
      ∃ dotdot', cleanLoop rooted f₁ (xs ++ Separator :: ys) out dotdot =
        cleanLoop rooted (ys.length + 1) (Separator :: ys)
          (cleanLoop rooted f₂ xs out dotdot) dotdot' := by
  induction n with
  | zero =>
    intro xs hxs ys out dotdot f₁ f₂ h₁ _
    have : xs = [] := List.length_eq_zero.mp (Nat.le_zero.mp hxs)
    subst this
    exact ⟨dotdot, by
      rw [cleanLoop_nil]
      exact cleanLoop_fuel rooted f₁ _ _ _ _ h₁ (by simp)⟩
  | succ n ih =>
    intro xs hxs ys out dotdot f₁ f₂ h₁ h₂
    cases xs with
    | nil =>
      exact ⟨dotdot, by
        rw [cleanLoop_nil]
        exact cleanLoop_fuel rooted f₁ _ _ _ _ h₁ (by simp)⟩
    | cons c p =>
      cases f₁ with
      | zero => simp at h₁
      | succ a =>
        cases f₂ with
        | zero => simp at h₂
        | succ b =>
          simp only [List.cons_append, List.length_cons, Nat.add_le_add_iff_right] at h₁ h₂ hxs
          have hpt : p.tail.length ≤ p.length := by simp
          have htail : p.head? = some '.' →
              (p ++ Separator :: ys).tail = p.tail ++ Separator :: ys := by
            intro h
            cases p with
            | nil => simp at h
            | cons d q => rfl
          have hlt : (p.tail ++ Separator :: ys).length ≤ a := by
            simp only [List.length_append, List.length_cons] at h₁ ⊢
            omega
          rw [List.cons_append, cleanLoop_cons rooted a c (p ++ Separator :: ys) out dotdot,
            cleanLoop_cons rooted b c p out dotdot]
          simp only [endOrSeparator_append, Bool.and_assoc, dotdot_test_append]
          by_cases hsep : IsPathSeparator c = true
          · rw [if_pos hsep, if_pos hsep]
            exact ih p hxs ys _ _ _ _ h₁ h₂
          · rw [if_neg hsep, if_neg hsep]
            have hdrop : (c :: p).dropWhile (fun x => !IsPathSeparator x) =
                p.dropWhile (fun x => !IsPathSeparator x) :=
              List.dropWhile_cons_of_pos (by simpa using hsep)
            have hdrop' : (c :: (p ++ Separator :: ys)).dropWhile (fun x => !IsPathSeparator x) =
                p.dropWhile (fun x => !IsPathSeparator x) ++ Separator :: ys := by
              rw [List.dropWhile_cons_of_pos (by simpa using hsep), dropWhile_append_separator]
            have htake : (c :: (p ++ Separator :: ys)).takeWhile (fun x => !IsPathSeparator x) =
                (c :: p).takeWhile (fun x => !IsPathSeparator x) := by
              rw [← List.cons_append, takeWhile_append_separator]
            have hdl := dropWhile_length_le (fun x => !IsPathSeparator x) p
            by_cases h₃ : (decide (c = '.') && endOrSeparator p) = true
            · rw [if_pos h₃, if_pos h₃]
              exact ih p hxs ys _ _ _ _ h₁ h₂
            · rw [if_neg h₃, if_neg h₃]
              by_cases h₄ : (decide (c = '.') &&
                  (decide (p.head? = some '.') && endOrSeparator p.tail)) = true
              · rw [if_pos h₄, if_pos h₄]
                have hhead : p.head? = some '.' := by
                  simp only [Bool.and_eq_true, decide_eq_true_eq] at h₄
                  exact h₄.2.1
                rw [htail hhead]
                by_cases h₅ : out.length > dotdot
                · rw [if_pos h₅, if_pos h₅]
                  exact ih p.tail (le_trans hpt hxs) ys _ _ _ _ hlt (le_trans hpt h₂)
                · rw [if_neg h₅, if_neg h₅]
                  by_cases h₆ : (!rooted) = true
                  · rw [if_pos h₆, if_pos h₆]
                    exact ih p.tail (le_trans hpt hxs) ys _ _ _ _ hlt (le_trans hpt h₂)
                  · rw [if_neg h₆, if_neg h₆]
                    exact ih p.tail (le_trans hpt hxs) ys _ _ _ _ hlt (le_trans hpt h₂)
              · rw [if_neg h₄, if_neg h₄, hdrop, hdrop', htake]
                exact ih _ (le_trans hdl hxs) ys _ _ _ _
                  (by simp only [List.length_append, List.length_cons] at h₁ ⊢; omega)
                  (le_trans hdl h₂)

theorem cleanLoop_last_element (rooted : Bool) (c : Char) (rest out : List Char) (dotdot : Nat)
    (hdot : c ≠ '.') (hsep : ∀ x ∈ c :: rest, IsPathSeparator x = false) :
    cleanLoop rooted ((c :: rest).length + 1) (Separator :: c :: rest) out dotdot =
      (c :: rest).reverse ++
        (if rooted && out.length != 1 || !rooted && out.length != 0 then Separator :: out
         else out) := by
  have hc : IsPathSeparator c = false := hsep c (List.mem_cons_self _ _)
  have htake : (c :: rest).takeWhile (fun x => !IsPathSeparator x) = c :: rest :=
    List.takeWhile_eq_self_iff.mpr (fun x hx => by simp [hsep x hx])
  have hdrop : (c :: rest).dropWhile (fun x => !IsPathSeparator x) = [] :=
    List.dropWhile_eq_nil_iff.mpr (fun x hx => by simp [hsep x hx])
  rw [cleanLoop_cons, if_pos (by simp [IsPathSeparator]), List.length_cons, cleanLoop_cons,
    if_neg (by simp [hc]), if_neg (by simp [hdot]), if_neg (by simp [hdot]), htake, hdrop,
    cleanLoop_nil]

theorem Join_two (a b : String) (ha : a ≠ "") :
    Join [a, b] = Clean (a ++ "/" ++ b) := by
  simp [Join, List.dropWhile, ha, String.intercalate, String.intercalate.go, Separator,
    String.singleton]
  rfl

theorem Clean_append_element (O : String) (c : Char) (rest : List Char)
    (hO : Clean O = O) (h₁ : O ≠ ".") (h₂ : O ≠ "/")
    (hdot : c ≠ '.') (hsep : ∀ x ∈ c :: rest, IsPathSeparator x = false) :
    Clean (O ++ "/" ++ String.mk (c :: rest)) = O ++ "/" ++ String.mk (c :: rest) := by
  rcases hdata : O.data with _ | ⟨c₀, prest⟩
  · have : O = "" := String.ext hdata
    subst this
    exact absurd hO (by decide)
  have hcat : (O ++ "/" ++ String.mk (c :: rest)).data = c₀ :: (prest ++ Separator :: c :: rest) := by
    simp [String.data_append, hdata, Separator]
  have hOd : O = String.mk (c₀ :: prest) := String.ext hdata
  apply String.ext
  rw [hcat]
  unfold Clean at hO ⊢
  rw [hcat]
  rw [hdata] at hO
  simp only [] at hO ⊢
  have hO' := congrArg String.data hO
  rw [hdata] at hO'
  simp only [] at hO'
  by_cases hroot : IsPathSeparator c₀ = true
  · rw [if_pos hroot] at hO' ⊢
    obtain ⟨dd, happ⟩ := cleanLoop_append true prest.length prest (Nat.le_refl _) (c :: rest)
      [Separator] 1 (prest ++ Separator :: c :: rest).length prest.length (Nat.le_refl _)
      (Nat.le_refl _)
    rw [happ, cleanLoop_last_element true c rest _ dd hdot hsep]
    generalize cleanLoop true prest.length prest [Separator] 1 = outO at hO' ⊢
    have hne : outO.length ≠ 0 := by
      intro h0
      rw [if_pos h0] at hO'
      simp only [List.reverse_cons, List.reverse_nil, List.nil_append, List.cons.injEq] at hO'
      exact h₁ (by rw [hOd, ← hO'.1, ← hO'.2])
    rw [if_neg hne] at hO'
    have hlen : outO.length = prest.length + 1 := by
      have := congrArg List.length hO'
      simpa using this
    have hne1 : outO.length ≠ 1 := by
      intro h1
      have hp : prest = [] := List.length_eq_zero.mp (by omega)
      have hc₀ : c₀ = Separator := by simpa [IsPathSeparator] using hroot
      exact h₂ (by rw [hOd, hp, hc₀]; rfl)
    simp [hne1, hO']
  · rw [if_neg hroot] at hO' ⊢
    obtain ⟨dd, happ⟩ := cleanLoop_append false (c₀ :: prest).length (c₀ :: prest)
      (Nat.le_refl _) (c :: rest) [] 0 (c₀ :: (prest ++ Separator :: c :: rest)).length
      (c₀ :: prest).length (Nat.le_refl _) (Nat.le_refl _)
    rw [List.cons_append] at happ
    rw [happ, cleanLoop_last_element false c rest _ dd hdot hsep]
    generalize cleanLoop false (c₀ :: prest).length (c₀ :: prest) [] 0 = outO at hO' ⊢
    have hne : outO.length ≠ 0 := by
      intro h0
      rw [if_pos h0] at hO'
      simp only [List.reverse_cons, List.reverse_nil, List.nil_append, List.cons.injEq] at hO'
      exact h₁ (by rw [hOd, ← hO'.1, ← hO'.2])
    rw [if_neg hne] at hO'
    simp [hne, hO']

/-! ## The response line -/

theorem slugChars_plain : ∀ c ∈ slugChars, c ≠ '.' ∧ IsPathSeparator c = false := by decide

theorem Join_slug_file (O slug : String) (hO : Clean O = O) (h₁ : O ≠ ".") (h₂ : O ≠ "/")
    (hlen : 0 < slug.length) (hchars : ∀ c ∈ slug.data, c ∈ slugChars) :
    Join [O, slug ++ ".txt"] = O ++ "/" ++ slug ++ ".txt" := by
  have hne : O ≠ "" := by
    intro h
    subst h
    exact absurd hO (by decide)
  rcases hdata : slug.data with _ | ⟨c, rest⟩
  · rw [String.length, hdata] at hlen
    exact absurd hlen (by simp)
  have hfile : slug ++ ".txt" = String.mk (c :: (rest ++ ".txt".data)) := by
    apply String.ext
    simp [String.data_append, hdata]
  have hmem : ∀ x ∈ c :: (rest ++ ".txt".data), IsPathSeparator x = false := by
    intro x hx
    rw [← List.cons_append, List.mem_append] at hx
    rcases hx with hx | hx
    · exact (slugChars_plain x (hchars x (by rw [hdata]; exact hx))).2
    · revert x
      decide
  have hc : c ≠ '.' := (slugChars_plain c (hchars c (by rw [hdata]; simp))).1
  rw [Join_two _ _ hne, String.append_assoc (O ++ "/"), hfile]
  exact Clean_append_element O c _ hO h₁ h₂ hc hmem

/-- Claim C3, as amended: for every configuration with slug length `L > 0` and every
successful submission (the slug is generated, file creation and write succeed: exactly
the runs in which the handler responds, `getRoot_responded_iff`), the response carries
the header
`X-gofiche: gofiche` and its body is exactly the one line
`Domain ++ ":" ++ decimal(Port) ++ "/" ++ sf ++ "\n"`, where
`sf = filepath.Join(OutDir, slug ++ ".txt")` is the path the content was written to and
`slug` is the `L`-letter slug generated for this request.  When `OutDir` is already in
cleaned form (`filepath.Clean(OutDir) = OutDir`) and is neither `.` nor `/`, then
`sf = OutDir ++ "/" ++ slug ++ ".txt"`. -/
theorem getRoot_response_line (g : Globals) (env : Env) (world : World) (r : Request)
    (hL : 0 < g.s.Slug.Length) (hgen : g.s.Slug.Generate g.rand ≠ none)
    (hcr : env.createErr = none) (hwr : env.writeErr = none) :
    ∃ slug rand, g.s.Slug.Generate g.rand = some (slug, rand) ∧
      (slug.Slug.length : Int) = g.s.Slug.Length ∧
      (∀ c ∈ slug.Slug.data, c ∈ slugChars) ∧
      (getRoot g env world ResponseWriter.new r).outcome =
        Outcome.responded
          { header := [("X-gofiche", "gofiche")],
            body := g.s.Domain ++ ":" ++ fmtInt g.s.Port ++ "/" ++
              Join [g.s.OutDir, slug.Slug ++ ".txt"] ++ "\n" } ∧
      (getRoot g env world ResponseWriter.new r).world.fs
        (Join [g.s.OutDir, slug.Slug ++ ".txt"]) = some (received g r).1 ∧
      (Clean g.s.OutDir = g.s.OutDir → g.s.OutDir ≠ "." → g.s.OutDir ≠ "/" →
        Join [g.s.OutDir, slug.Slug ++ ".txt"] = g.s.OutDir ++ "/" ++ slug.Slug ++ ".txt") := by
  obtain ⟨⟨slug, rand⟩, hgen⟩ := Option.ne_none_iff_exists'.mp hgen
  obtain ⟨-, -, -, -, hlen, hchars⟩ := Generate_some _ _ _ _ hgen
  refine ⟨slug, rand, hgen, hlen, hchars, ?_, ?_, ?_⟩
  · simp [getRoot_outcome, hgen, hcr, hwr, successResponse, ResponseWriter.Add,
      ResponseWriter.WriteString, ResponseWriter.new]
  · simp [getRoot_fs, hgen, hcr, hwr]
  · intro hO h₁ h₂
    exact Join_slug_file _ _ hO h₁ h₂ (by
      have : (0 : Int) < (slug.Slug.length : Int) := by rw [hlen]; exact hL
      exact_mod_cast this) hchars

/-- Witness for C3: end-to-end scenario 1, `hello world` posted to `example.com:9999` with
output directory `pastes`. -/
theorem getRoot_response_line_witness :
    ∃ slug rand, (Serve exampleSettings (fun _ => 0)).s.Slug.Generate (fun _ => 0) =
        some (slug, rand) ∧
      (getRoot (Serve exampleSettings (fun _ => 0)) exampleEnv emptyWorld ResponseWriter.new
          (exampleRequest "/" [ReadEvent.data helloWorld])).outcome =
        Outcome.responded
          { header := [("X-gofiche", "gofiche")],
            body := "example.com" ++ ":" ++ fmtInt 9999 ++ "/" ++
              Join ["pastes", slug.Slug ++ ".txt"] ++ "\n" } ∧
      (getRoot (Serve exampleSettings (fun _ => 0)) exampleEnv emptyWorld ResponseWriter.new
          (exampleRequest "/" [ReadEvent.data helloWorld])).world.fs
        (Join ["pastes", slug.Slug ++ ".txt"]) = some helloWorld ∧
      Join ["pastes", slug.Slug ++ ".txt"] = "pastes" ++ "/" ++ slug.Slug ++ ".txt" :=
  match getRoot_response_line (Serve exampleSettings (fun _ => 0)) exampleEnv emptyWorld
    (exampleRequest "/" [ReadEvent.data helloWorld]) (by decide)
    ((Generate_ne_none_iff _ _).mpr ⟨by decide, by decide⟩) rfl rfl with
  | ⟨slug, rand, hgen, _, _, hout, hfs, hpath⟩ =>
    ⟨slug, rand, hgen, hout, hfs, hpath (by decide) (by decide) (by decide)⟩

/-- Counterexample to C3 as stated: with output directory `pastes/` the slug is `aaaaaa`
and the response line is `example.com:9999/pastes/aaaaaa.txt`, not the concatenation
`D ++ ":" ++ decimal(P) ++ "/" ++ O ++ "/" ++ slug ++ ".txt\n"`, which has two slashes. -/
theorem getRoot_response_line_counterexample :
    (getRoot (Serve { exampleSettings with OutDir := "pastes/" } (fun _ => 0)) exampleEnv
        emptyWorld ResponseWriter.new
        (exampleRequest "/" [ReadEvent.data helloWorld])).g.s.Slug.Slug = "aaaaaa" ∧
    (getRoot (Serve { exampleSettings with OutDir := "pastes/" } (fun _ => 0)) exampleEnv
        emptyWorld ResponseWriter.new
        (exampleRequest "/" [ReadEvent.data helloWorld])).outcome =
      Outcome.responded
        { header := [("X-gofiche", "gofiche")], body := "example.com:9999/pastes/aaaaaa.txt\n" } ∧
    "example.com:9999/pastes/aaaaaa.txt\n" ≠
      "example.com" ++ ":" ++ fmtInt 9999 ++ "/" ++ "pastes/" ++ "/" ++ "aaaaaa" ++ ".txt\n" := by
  refine ⟨by rfl, by decide, by decide⟩

/-! ## Fatal exits -/

theorem getRoot_terminated_iff (g : Globals) (env : Env) (world : World) (w : ResponseWriter)
    (r : Request) (hgen : g.s.Slug.Generate g.rand ≠ none) :
    (∃ msg, (getRoot g env world w r).outcome = Outcome.terminated msg) ↔
      (env.createErr ≠ none ∨ env.writeErr ≠ none) := by
  obtain ⟨⟨slug, rand⟩, hgen⟩ := Option.ne_none_iff_exists'.mp hgen
  rw [getRoot_outcome, hgen]
  rcases hc : env.createErr with _ | e
  · rcases hw : env.writeErr with _ | ⟨n, e⟩ <;> simp
  · simp

/-- Claim C5, the code at the failing input: with `OutDir = ""` the directory creation
fails (`setupOutdir` returns the error), yet `getRoot` goes on, creates `aaaaaa.txt`,
writes the payload and ends in "responded", not in a fatal exit. -/
theorem getRoot_mkdir_failure_not_fatal :
    (setupOutdir (Serve { exampleSettings with OutDir := "" } (fun _ => 0))
        { exampleEnv with mkdirAllErr := some "mkdir : no such file or directory" }
        emptyWorld "").1 = some "mkdir : no such file or directory" ∧
    (getRoot (Serve { exampleSettings with OutDir := "" } (fun _ => 0))
        { exampleEnv with mkdirAllErr := some "mkdir : no such file or directory" }
        emptyWorld ResponseWriter.new (exampleRequest "/" [ReadEvent.data helloWorld])).outcome =
      Outcome.responded
        { header := [("X-gofiche", "gofiche")], body := "example.com:9999/aaaaaa.txt\n" } ∧
    (getRoot (Serve { exampleSettings with OutDir := "" } (fun _ => 0))
        { exampleEnv with mkdirAllErr := some "mkdir : no such file or directory" }
        emptyWorld ResponseWriter.new (exampleRequest "/" [ReadEvent.data helloWorld])).world.fs
      "aaaaaa.txt" = some helloWorld := by
  refine ⟨by rfl, by decide, by rfl⟩

/-! ## The settings record -/

theorem Generate_Length (s slug : Gofiche.Slug) (rng rand : Rand)
    (h : s.Generate rng = some (slug, rand)) : slug.Length = s.Length :=
  (Generate_some s slug rng rand h).2.2.2.1

/-- Counterexample to C6 as stated: after one request to `getRoot` the settings record is
not what it was, since `s.Slug.Generate()` stores the new slug in it. -/
theorem settings_mutated_counterexample :
    (getRoot (Serve exampleSettings (fun _ => 0)) exampleEnv emptyWorld ResponseWriter.new
      (exampleRequest "/" [ReadEvent.data helloWorld])).g.s ≠
      (Serve exampleSettings (fun _ => 0)).s := by
  decide

/-- Claim C6, as amended: `getHelp` and `getCount` leave the settings record as it was,
and `getRoot` changes nothing in it but `Slug.Slug`, where it stores the slug generated
for the request: `ListenAddr`, `Port`, `Slug.Length`, `Domain`, `BufferSize`, `UserName`,
`LogFile`, `OutDir` and `Debug` are the same after the handler as before. -/
theorem settings_frame (g : Globals) (env : Env) (world : World) (w : ResponseWriter)
    (r : Request) :
    (getHelp g world w r).g.s = g.s ∧
    (getCount g world w r).g.s = g.s ∧
    (getRoot g env world w r).g.s =
      { g.s with Slug := { g.s.Slug with Slug := (getRoot g env world w r).g.s.Slug.Slug } } := by
  refine ⟨rfl, rfl, ?_⟩
  rw [getRoot_g]
  rcases hgen : g.s.Slug.Generate g.rand with _ | ⟨slug, rand⟩
  · rfl
  · have := Generate_Length _ _ _ _ hgen
    cases slug
    simp at this ⊢
    exact this

/-! ## Body read errors -/

theorem getRoot_read_failure_debug_off (g : Globals) (env : Env) (world : World)
    (w : ResponseWriter) (r : Request) (P : Bytes) (e : String) (rest : Reader)
    (hD : g.s.Debug = false) (hread : ReadAll r.Body = (P, some e, rest)) :
    (∀ r' rest', ReadAll r'.Body = (P, none, rest') →
      (getRoot g env world w r).outcome = (getRoot g env world w r').outcome ∧
      (getRoot g env world w r).world.fs = (getRoot g env world w r').world.fs ∧
      (getRoot g env world w r).g = (getRoot g env world w r').g) ∧
    (g.s.Slug.Generate g.rand ≠ none → env.createErr = none → env.writeErr = none →
      ∃ slug rand, g.s.Slug.Generate g.rand = some (slug, rand) ∧
        (getRoot g env world w r).outcome =
          Outcome.responded
            { header := w.header ++ [("X-gofiche", "gofiche")],
              body := w.body ++ (g.s.Domain ++ ":" ++ fmtInt g.s.Port ++ "/" ++
                Join [g.s.OutDir, slug.Slug ++ ".txt"] ++ "\n") } ∧
        (getRoot g env world w r).world.fs (Join [g.s.OutDir, slug.Slug ++ ".txt"]) = some P) := by
  have hrec : received g r = (P, some e) := by
    rw [received_debug_off g r hD, hread]
  constructor
  · intro r' rest' hr'
    refine ⟨by simp only [getRoot_outcome], ?_, by simp only [getRoot_g]⟩
    simp only [getRoot_fs, hrec, received_of_read_ok g r' P rest' hr']
  · intro hgen hc hw
    obtain ⟨⟨slug, rand⟩, hgen⟩ := Option.ne_none_iff_exists'.mp hgen
    refine ⟨slug, rand, hgen, ?_, ?_⟩
    · simp [getRoot_outcome, hgen, hc, hw, successResponse, ResponseWriter.Add,
        ResponseWriter.WriteString]
    · simp [getRoot_fs, hgen, hc, hw, hrec]

/-- Claim C8, the code at the failing input: the debug flag is set and the body of the
submission delivers `he` and then fails with `unexpected EOF`.  The handler does respond
with the usual success line, but the file it stores at `pastes/aaaaaa.txt` is empty: the
partial content `he` went to the failed debug dump, and the handler's own read returned
no data and no error. -/
theorem getRoot_debug_read_failure_stores_nothing :
    ReadAll (exampleRequest "/"
        [ReadEvent.data [104, 101], ReadEvent.fail "unexpected EOF"]).Body =
      ([104, 101], some "unexpected EOF", []) ∧
    (getRoot (Serve { exampleSettings with Debug := true } (fun _ => 0)) exampleEnv emptyWorld
      ResponseWriter.new
      (exampleRequest "/" [ReadEvent.data [104, 101], ReadEvent.fail "unexpected EOF"])).outcome =
      Outcome.responded
        { header := [("X-gofiche", "gofiche")], body := "example.com:9999/pastes/aaaaaa.txt\n" } ∧
    (getRoot (Serve { exampleSettings with Debug := true } (fun _ => 0)) exampleEnv emptyWorld
      ResponseWriter.new
      (exampleRequest "/" [ReadEvent.data [104, 101], ReadEvent.fail "unexpected EOF"])).world.fs
      "pastes/aaaaaa.txt" = some [] ∧
    received (Serve { exampleSettings with Debug := true } (fun _ => 0))
      (exampleRequest "/" [ReadEvent.data [104, 101], ReadEvent.fail "unexpected EOF"]) =
      ([], none) := by
  refine ⟨by rfl, by decide, by rfl, by rfl⟩

/-! ## The debug dump -/

theorem debug_flag_irrelevant_when_read_ok (g : Globals) (env : Env) (world : World)
    (w : ResponseWriter) (r : Request) (B : Bytes) (rest : Reader) (flag : Bool)
    (hB : ReadAll r.Body = (B, none, rest)) :
    (getRoot { g with s := { g.s with Debug := flag } } env world w r).outcome =
      (getRoot g env world w r).outcome ∧
    (getRoot { g with s := { g.s with Debug := flag } } env world w r).world.fs =
      (getRoot g env world w r).world.fs := by
  constructor
  · simp only [getRoot_outcome, successResponse]
  · simp only [getRoot_fs, received_of_read_ok _ r B rest hB]

/-- Claim C9, the code at the failing input: a body that delivers `he` and then fails.
With the debug flag unset the stored file holds `he`; with it set the dump has consumed
those bytes, the later read finds nothing, and the stored file is empty. -/
theorem debug_dump_loses_partial_body :
    (getRoot (Serve exampleSettings (fun _ => 0)) exampleEnv emptyWorld ResponseWriter.new
      (exampleRequest "/" [ReadEvent.data [104, 101], ReadEvent.fail "unexpected EOF"])).world.fs
      "pastes/aaaaaa.txt" = some [104, 101] ∧
    (getRoot (Serve { exampleSettings with Debug := true } (fun _ => 0)) exampleEnv emptyWorld
      ResponseWriter.new
      (exampleRequest "/" [ReadEvent.data [104, 101], ReadEvent.fail "unexpected EOF"])).world.fs
      "pastes/aaaaaa.txt" = some [] := by
  refine ⟨by rfl, by rfl⟩

/-! ## The hit counter -/

theorem wrapInt_of_range (x : Int) (h₁ : -2 ^ 63 ≤ x) (h₂ : x < 2 ^ 63) : wrapInt x = x := by
  simp only [wrapInt, intBits]
  norm_num at h₁ h₂ ⊢
  omega

theorem wrapInt_range (x : Int) : -2 ^ 63 ≤ wrapInt x ∧ wrapInt x < 2 ^ 63 := by
  simp only [wrapInt, intBits]
  norm_num
  omega

theorem handle_count (g : Globals) (env : Env) (world : World) (r : Request)
    (h : r.Path = "/count") :
    (handle g env world r).outcome =
        Outcome.responded
          { header := [], body := "Count, " ++ fmtInt (wrapInt (g.ct.counter + 1)) ++ "!\n" } ∧
      (handle g env world r).g = { g with ct := { counter := wrapInt (g.ct.counter + 1) } } := by
  simp [handle, h, getCount, CounterHandler.Increment, ResponseWriter.new,
    ResponseWriter.WriteString]

theorem serve_count (reqs : List (Env × Request)) :
    ∀ (g : Globals) (world : World), (∀ x ∈ reqs, x.2.Path = "/count") →
      -2 ^ 63 ≤ g.ct.counter → g.ct.counter < 2 ^ 63 →
      g.ct.counter + reqs.length ≤ 2 ^ 63 →
      (serve g world reqs).1 = (List.range reqs.length).map (fun (i : Nat) =>
        Outcome.responded
          { header := [],
            body := "Count, " ++ fmtInt (wrapInt (g.ct.counter + ((i + 1 : Nat) : Int))) ++ "!\n" }) ∧
      (serve g world reqs).2.1.ct.counter = wrapInt (g.ct.counter + reqs.length) ∧
      (serve g world reqs).2.1.s = g.s := by
  induction reqs with
  | nil =>
    intro g world _ h₁ h₂ _
    simp [serve, wrapInt_of_range _ h₁ h₂]
  | cons x rest ih =>
    intro g world hall h₁ h₂ h₃
    obtain ⟨env, r⟩ := x
    have hr : r.Path = "/count" := hall (env, r) (List.mem_cons_self _ _)
    obtain ⟨hout, hg⟩ := handle_count g env world r hr
    have hrange := wrapInt_range (g.ct.counter + 1)
    have hrest : ∀ x ∈ rest, x.2.Path = "/count" := fun x hx => hall x (List.mem_cons_of_mem _ hx)
    have hlen : ((rest.length + 1 : Nat) : Int) = (rest.length : Int) + 1 := by push_cast; rfl
    simp only [List.length_cons, hlen] at h₃
    by_cases hnil : rest = []
    · subst hnil
      simp [serve, hout, hg, List.range_succ]
    · have hpos : 0 < rest.length := List.length_pos.mpr hnil
      have hw : wrapInt (g.ct.counter + 1) = g.ct.counter + 1 :=
        wrapInt_of_range _ (by omega) (by omega)
      obtain ⟨ih₁, ih₂, ih₃⟩ := ih (handle g env world r).g (handle g env world r).world hrest
        (by rw [hg]; exact hrange.1) (by rw [hg]; exact hrange.2)
        (by rw [hg]; simp only [hw]; omega)
      simp only [serve, hout, List.length_cons]
      refine ⟨?_, ?_, ?_⟩
      · rw [ih₁, List.range_succ_eq_map]
        simp only [List.map_cons, List.map_map, hg]
        refine congrArg₂ _ (by simp) ?_
        apply List.map_congr_left
        intro i _
        simp only [Function.comp, Nat.succ_eq_add_one, hw]
        push_cast
        rw [show g.ct.counter + 1 + ((i : Int) + 1) = g.ct.counter + ((i : Int) + 1 + 1) by ring]
      · rw [ih₂, hg]
        simp only [hw, hlen]
        congr 1
        ring
      · rw [ih₃, hg]

/-- Claim C7, as amended: starting from the state `Serve` sets up (counter 0), for every
sequence of `n < 2 ^ 63` requests to the counter endpoint served one after the other, the
`i`-th response (for `i = 1, ..., n`) is exactly `"Count, i!\n"` and the counter ends at
`n`, the number of requests served. -/
theorem count_sequence (settings : GoficheSettings) (seed : Rand) (world : World)
    (reqs : List (Env × Request)) (hall : ∀ x ∈ reqs, x.2.Path = "/count")
    (hn : reqs.length < 2 ^ 63) :
    (serve (Serve settings seed) world reqs).1 = (List.range reqs.length).map (fun (i : Nat) =>
      Outcome.responded { header := [], body := "Count, " ++ Nat.repr (i + 1) ++ "!\n" }) ∧
    (serve (Serve settings seed) world reqs).2.1.ct.counter = (reqs.length : Int) := by
  have hn' : (reqs.length : Int) < 2 ^ 63 := by exact_mod_cast hn
  obtain ⟨h₁, h₂, -⟩ := serve_count reqs (Serve settings seed) world hall
    (by simp [Serve, init]) (by simp [Serve, init])
    (by simp only [Serve, init]; omega)
  refine ⟨?_, ?_⟩
  · rw [h₁]
    apply List.map_congr_left
    intro i hi
    have hi' : i < reqs.length := List.mem_range.mp hi
    have : wrapInt ((Serve settings seed).ct.counter + ((i + 1 : Nat) : Int)) =
        ((i + 1 : Nat) : Int) := by
      simp only [Serve, init, zero_add]
      exact wrapInt_of_range _ (le_trans (by norm_num) (Int.ofNat_nonneg _)) (by push_cast; omega)
    rw [this]
    rfl
  · rw [h₂]
    simp only [Serve, init, zero_add]
    exact wrapInt_of_range _ (le_trans (by norm_num) (Int.ofNat_nonneg _)) hn'

/-- Witness for C7: end-to-end scenario 2, three requests in sequence. -/
theorem count_sequence_witness :
    (serve (Serve exampleSettings (fun _ => 0)) emptyWorld
      (List.replicate 3 (exampleEnv, exampleRequest "/count" []))).1 =
      [Outcome.responded { header := [], body := "Count, 1!\n" },
       Outcome.responded { header := [], body := "Count, 2!\n" },
       Outcome.responded { header := [], body := "Count, 3!\n" }] :=
  (count_sequence exampleSettings (fun _ => 0) emptyWorld
    (List.replicate 3 (exampleEnv, exampleRequest "/count" [])) (by decide) (by decide)).1

/-- Counterexample to C7 as stated: the `2 ^ 63`-th of `2 ^ 63` sequential requests wraps
the 64-bit counter; the response is `Count, -9223372036854775808!`, not
`Count, 9223372036854775808!`, and the counter does not equal the number of requests. -/
theorem count_sequence_counterexample :
    (serve (Serve exampleSettings (fun _ => 0)) emptyWorld
      (List.replicate (2 ^ 63) (exampleEnv, exampleRequest "/count" []))).1.getLast? =
      some (Outcome.responded { header := [], body := "Count, -9223372036854775808!\n" }) ∧
    (serve (Serve exampleSettings (fun _ => 0)) emptyWorld
      (List.replicate (2 ^ 63) (exampleEnv, exampleRequest "/count" []))).2.1.ct.counter =
      -9223372036854775808 := by
  obtain ⟨h₁, h₂, -⟩ := serve_count
    (List.replicate (2 ^ 63) (exampleEnv, exampleRequest "/count" []))
    (Serve exampleSettings (fun _ => 0)) emptyWorld
    (fun x hx => by rw [(List.mem_replicate.mp hx).2]; rfl)
    (by simp [Serve, init]) (by simp [Serve, init])
    (by simp only [Serve, init, List.length_replicate]; norm_num)
  simp only [List.length_replicate] at h₁ h₂
  refine ⟨?_, ?_⟩
  · rw [h₁, List.getLast?_map, List.getLast?_range]
    simp only [Serve, init, zero_add]
    norm_num [wrapInt, intBits]
    decide
  · rw [h₂]
    simp only [Serve, init, zero_add]
    norm_num [wrapInt, intBits]

end Gofiche
